import Mathlib

/-!
Shallow embedding of the opportunity lifecycle engine of the hk-ttt
repository, together with theorems settling the frozen claims about it.

The repository contains two parallel implementations of the same domain:
  * the "clean architecture" variant under
    `opportunity-management/src/opportunity_management/` (entities,
    domain services, enums), and
  * the "aidlc" variant under
    `aidlc-docs/construction/opportunity_management_service/` (service
    layer with repositories) plus the API adapter under
    `aidlc-docs/construction/opportunity_api/`.

Every definition below is translated from one of these sources; its doc
comment names the Python file and symbol it embeds.  Definitions whose
name ends in `Spec` are instead written from the specification's words
and are only used to compare the code against the spec.

Machine conventions: timestamps and calendar dates are modelled as `Int`
day numbers (the code only ever compares instants and adds day deltas);
`datetime.now()` / `date.today()` become an explicit `now`/`today`
argument (the injectable clock of spec section 6); Python `raise` in a
mutator becomes an `Option`/`Except` result, `none`/`.error` meaning the
exception was raised and the aggregate left untouched.
-/

/-- Models Python's `str.lower()`: lowercase character by character.
(`String.toLower` itself is not kernel-reducible in this toolchain, so
the per-character map is spelled out on the underlying character
list.) -/
def pyLower (s : String) : String := ⟨s.data.map Char.toLower⟩

/-- Models Python's `str.strip()`: drop whitespace from both ends.
(`String.trim` is not kernel-reducible in this toolchain, so it is
spelled out on the underlying character list.) -/
def pyStrip (s : String) : String :=
  ⟨((s.data.dropWhile Char.isWhitespace).reverse.dropWhile
      Char.isWhitespace).reverse⟩

/-- Embeds `OpportunityStatus` of
`opportunity-management/.../domain/enums/status.py` (also
`aidlc-docs/construction/opportunity_management_service/enums.py`):
the seven lifecycle states. -/
inductive OpportunityStatus where
  | draft
  | submitted
  | matchingInProgress
  | matchesFound
  | architectSelected
  | completed
  | cancelled
deriving DecidableEq, Repr

/-- The `value` string of each `OpportunityStatus` enum member
(`status.py`, lines 12-18). -/
def statusValue : OpportunityStatus → String
  | .draft => "Draft"
  | .submitted => "Submitted"
  | .matchingInProgress => "Matching in Progress"
  | .matchesFound => "Matches Found"
  | .architectSelected => "Architect Selected"
  | .completed => "Completed"
  | .cancelled => "Cancelled"

/-- Declaration order of the enum members, the order `for status in cls`
iterates over in `OpportunityStatus.from_string`. -/
def statusList : List OpportunityStatus :=
  [.draft, .submitted, .matchingInProgress, .matchesFound,
   .architectSelected, .completed, .cancelled]

/-- Embeds `OpportunityStatus.from_string` (`status.py`, lines 28-34):
scan the members in declaration order and return the first whose value
string equals the argument case-insensitively; `none` models the
`ValueError` raised when no member matches. -/
def statusFromString (s : String) : Option OpportunityStatus :=
  statusList.find? (fun st => pyLower (statusValue st) == pyLower s)

/-- Embeds `OpportunityStatus.can_transition_to` (`status.py`, lines
36-63): the transition table of the clean-architecture variant.  Note
`CANCELLED: [DRAFT]` in the source — reactivation always targets Draft
here. -/
def canTransitionTo (s t : OpportunityStatus) : Bool :=
  match s with
  | .draft => t = .submitted || t = .cancelled
  | .submitted => t = .matchingInProgress || t = .cancelled
  | .matchingInProgress => t = .matchesFound || t = .cancelled
  | .matchesFound => t = .architectSelected || t = .cancelled
  | .architectSelected => t = .completed || t = .cancelled
  | .completed => false
  | .cancelled => t = .draft

/-- Embeds `OpportunityStatus.is_valid_transition` of
`aidlc-docs/construction/opportunity_management_service/opportunity_status.py`,
lines 34-48: same table except `CANCELLED: []` (reactivation handled
separately). -/
def isValidTransition (s t : OpportunityStatus) : Bool :=
  match s with
  | .draft => t = .submitted || t = .cancelled
  | .submitted => t = .matchingInProgress || t = .cancelled
  | .matchingInProgress => t = .matchesFound || t = .cancelled
  | .matchesFound => t = .architectSelected || t = .cancelled
  | .architectSelected => t = .completed || t = .cancelled
  | .completed => false
  | .cancelled => false

/-- Embeds `OpportunityStatus.is_modifiable` (`status.py`, lines 65-71):
true exactly for Draft and Submitted. -/
def statusIsModifiable (s : OpportunityStatus) : Bool :=
  s = .draft || s = .submitted

/-- Embeds `OpportunityStatus.is_final` (`status.py`, lines 73-79):
true exactly for Completed and Cancelled. -/
def statusIsFinal (s : OpportunityStatus) : Bool :=
  s = .completed || s = .cancelled

/-- Written from the claim's words, for comparison with the code: the
section-4.1 table where the only outgoing edge of Cancelled is to
`prior`, the status held immediately before cancellation. -/
def claimTransitionTableSpec (prior : OpportunityStatus)
    (s t : OpportunityStatus) : Bool :=
  match s with
  | .draft => t = .submitted || t = .cancelled
  | .submitted => t = .matchingInProgress || t = .cancelled
  | .matchingInProgress => t = .matchesFound || t = .cancelled
  | .matchesFound => t = .architectSelected || t = .cancelled
  | .architectSelected => t = .completed || t = .cancelled
  | .completed => false
  | .cancelled => t = prior

/-- Embeds `Priority` of
`opportunity-management/.../domain/enums/priority.py`. -/
inductive Priority where
  | low
  | medium
  | high
  | critical
deriving DecidableEq, Repr

/-- The `value` string of each `Priority` member (`priority.py`). -/
def priorityValue : Priority → String
  | .low => "Low"
  | .medium => "Medium"
  | .high => "High"
  | .critical => "Critical"

/-- Declaration order of the `Priority` members. -/
def priorityList : List Priority := [.low, .medium, .high, .critical]

/-- Embeds `Priority.from_string` (`priority.py`): case-insensitive scan
in declaration order; `none` models the `ValueError`. -/
def priorityFromString (s : String) : Option Priority :=
  priorityList.find? (fun p => pyLower (priorityValue p) == pyLower s)

/-- Embeds `SkillImportance` of
`opportunity-management/.../domain/enums/skill_importance.py`. -/
inductive SkillImportance where
  | mustHave
  | niceToHave
deriving DecidableEq, Repr

/-- Embeds `SkillImportance.is_mandatory` (`skill_importance.py`):
true exactly for `MUST_HAVE`. -/
def importanceIsMandatory (i : SkillImportance) : Bool :=
  i = .mustHave

/-- Embeds `TimelineFlexibility` of
`opportunity-management/.../domain/enums/timeline_flexibility.py`. -/
inductive TimelineFlexibility where
  | fixed
  | flexible
  | negotiable
deriving DecidableEq, Repr

/-- Embeds `TimelineFlexibility.allows_adjustment`
(`timeline_flexibility.py`): true for Flexible and Negotiable. -/
def allowsAdjustment (f : TimelineFlexibility) : Bool :=
  f = .flexible || f = .negotiable

/-- Embeds the `SkillRequirement` value object of
`opportunity-management/.../domain/value_objects/skill_requirement.py`
(the fields the domain logic reads). -/
structure SkillRequirement where
  skillName : String
  skillCategory : String
  importance : SkillImportance
  proficiencyLevel : Option String := none
deriving DecidableEq, Repr

/-- Embeds `SkillRequirement.is_mandatory` (`skill_requirement.py`). -/
def SkillRequirement.isMandatory (sr : SkillRequirement) : Bool :=
  importanceIsMandatory sr.importance

/-- Truthiness of a Python `Optional[str]`: `None` and `""` are falsy. -/
def optStrTruthy : Option String → Bool
  | none => false
  | some s => s ≠ ""

/-- Embeds the `ProblemStatement` entity of
`opportunity-management/.../domain/entities/problem_statement.py`
(the fields `is_complete` reads, plus `constraints`). -/
structure ProblemStatementE where
  title : String
  description : String
  businessImpact : Option String := none
  technicalRequirements : Option String := none
  successCriteria : Option String := none
  constraints : Option String := none
deriving DecidableEq, Repr

/-- Embeds `ProblemStatement.is_complete` (`problem_statement.py`, lines
124-133): `all([title, description, business_impact,
technical_requirements, success_criteria])` under Python truthiness
(`constraints` is not consulted). -/
def ProblemStatementE.isComplete (ps : ProblemStatementE) : Bool :=
  ps.title ≠ "" && ps.description ≠ "" &&
    optStrTruthy ps.businessImpact &&
    optStrTruthy ps.technicalRequirements &&
    optStrTruthy ps.successCriteria

/-- Embeds the `TimelineSpecification` value object of
`opportunity-management/.../domain/value_objects/timeline_specification.py`
(the fields the modification rules read). -/
structure TimelineSpec where
  expectedStartDate : Int
  expectedDurationDays : Int
  flexibility : TimelineFlexibility
deriving DecidableEq, Repr

/-- Embeds the `StatusHistory` entity of
`opportunity-management/.../domain/entities/status_history.py`:
an immutable status-change fact. -/
structure StatusHistoryE where
  fromStatus : Option OpportunityStatus
  toStatus : OpportunityStatus
  changedBy : String
  changeReason : Option String := none
  notes : Option String := none
deriving DecidableEq, Repr

/-- Embeds the `Opportunity` aggregate root of
`opportunity-management/.../domain/entities/opportunity.py` (the fields
the modelled methods read or write; dates are `Int` day numbers). -/
structure Opp where
  title : String
  description : String
  customerId : String
  salesManagerId : String
  annualRecurringRevenue : Int
  priority : Priority
  status : OpportunityStatus
  problemStatement : Option ProblemStatementE := none
  skillRequirements : List SkillRequirement := []
  timelineSpecification : Option TimelineSpec := none
  statusHistory : List StatusHistoryE := []
  selectedArchitectId : Option String := none
  completionDate : Option Int := none
  cancellationDate : Option Int := none
  cancellationReason : Option String := none
deriving DecidableEq, Repr

/-- Embeds `Opportunity.change_status` (`opportunity.py`, lines
168-194): check `can_transition_to`, append one `StatusHistory` entry,
set the new status, and on Cancelled / Completed set the corresponding
date fields.  `none` models the `ValueError` on an illegal transition,
raised before anything is mutated. -/
def changeStatus (o : Opp) (newStatus : OpportunityStatus)
    (changedBy : String) (reason notes : Option String) (today : Int) :
    Option Opp :=
  if canTransitionTo o.status newStatus then
    some { o with
      statusHistory := o.statusHistory ++
        [{ fromStatus := some o.status, toStatus := newStatus,
           changedBy := changedBy, changeReason := reason, notes := notes }],
      status := newStatus,
      cancellationDate :=
        if newStatus = .cancelled then some today else o.cancellationDate,
      cancellationReason :=
        if newStatus = .cancelled then reason else o.cancellationReason,
      completionDate :=
        if newStatus = .completed then some today else o.completionDate }
  else
    none

/-- Embeds `Opportunity.cancel_opportunity` (`opportunity.py`, lines
213-221): reject when the status is final or the reason is blank, else
delegate to `change_status(CANCELLED, ...)`. -/
def cancelOpportunityE (o : Opp) (cancelledBy : String) (reason : String)
    (notes : Option String) (today : Int) : Option Opp :=
  if statusIsFinal o.status then none
  else if pyStrip reason = "" then none
  else changeStatus o .cancelled cancelledBy (some reason) notes today

/-- Embeds `Opportunity.reactivate_opportunity` (`opportunity.py`, lines
223-239): require Cancelled status, a cancellation date, and at most 90
days since cancellation, then `change_status(DRAFT, ...)` and clear the
cancellation fields. -/
def reactivateOpportunityE (o : Opp) (reactivatedBy : String)
    (notes : Option String) (today : Int) : Option Opp :=
  if o.status ≠ .cancelled then none
  else
    match o.cancellationDate with
    | none => none
    | some d =>
      if today - d > 90 then none
      else
        (changeStatus o .draft reactivatedBy (some "Opportunity reactivated")
            notes today).map
          (fun o' =>
            { o' with
              cancellationDate := none
              cancellationReason := none })

/-- Embeds `Opportunity.add_skill_requirement` (`opportunity.py`, lines
117-129): reject when the status is not modifiable or when an existing
requirement has the same name (case-insensitively) and the same
category; else append. -/
def addSkillRequirement (o : Opp) (sr : SkillRequirement) : Option Opp :=
  if ¬ statusIsModifiable o.status then none
  else if o.skillRequirements.any (fun e =>
      pyLower e.skillName == pyLower sr.skillName &&
      e.skillCategory == sr.skillCategory) then none
  else some { o with skillRequirements := o.skillRequirements ++ [sr] }

/-- Helper for `remove_skill_requirement`: delete the first entry whose
name matches case-insensitively and whose category matches exactly;
the Bool reports whether one was found. -/
def removeFirstSkill (name category : String) :
    List SkillRequirement → List SkillRequirement × Bool
  | [] => ([], false)
  | e :: rest =>
    if pyLower e.skillName == pyLower name && e.skillCategory == category then
      (rest, true)
    else
      (e :: (removeFirstSkill name category rest).1,
       (removeFirstSkill name category rest).2)

/-- Embeds `Opportunity.remove_skill_requirement` (`opportunity.py`,
lines 131-142): reject when the status is not modifiable; else delete
the first case-insensitive match and return whether one was found. -/
def removeSkillRequirement (o : Opp) (name category : String) :
    Option (Opp × Bool) :=
  if ¬ statusIsModifiable o.status then none
  else
    let (rest, found) := removeFirstSkill name category o.skillRequirements
    some ({ o with skillRequirements := rest }, found)

/-- Replaying a status history in order: each entry overwrites the
current status with its `to_status`, so the replay result is the last
entry's `to_status` (`none` for an empty history). -/
def replayStatus (h : List StatusHistoryE) : Option OpportunityStatus :=
  h.foldl (fun _ e => some e.toStatus) none

/-- Embeds `Opportunity.mandatory_skills` (`opportunity.py`, lines
302-305): the skill requirements whose importance is mandatory. -/
def mandatorySkills (o : Opp) : List SkillRequirement :=
  o.skillRequirements.filter (fun sr => sr.isMandatory)

/-- Embeds the `opportunity_data` dictionary consumed by
`OpportunityValidationService.validate_for_creation`: absent keys
default to `""` / `0` / `None` exactly as `dict.get` does there. -/
structure CreationData where
  title : String := ""
  description : String := ""
  customerId : String := ""
  salesManagerId : String := ""
  annualRecurringRevenue : Option Int := none
  priority : Option String := none
deriving DecidableEq, Repr

/-- Embeds `OpportunityValidationService.validate_for_creation`
(`opportunity_validation_service.py`, lines 21-56): every check runs and
each failure appends one message; note the source rejects `arr <= 0`
("must be positive"), and a present-but-empty priority string is falsy
in Python, hence "Priority is required". -/
def validateForCreation (d : CreationData) : List String :=
  (if pyStrip d.title = "" then ["Opportunity title is required"] else []) ++
  (if pyStrip d.description = "" then ["Opportunity description is required"]
   else []) ++
  (if pyStrip d.customerId = "" then ["Customer ID is required"] else []) ++
  (if pyStrip d.salesManagerId = "" then ["Sales Manager ID is required"]
   else []) ++
  (if d.annualRecurringRevenue.getD 0 ≤ 0 then
     ["Annual Recurring Revenue must be positive"] else []) ++
  (match d.priority with
   | some p =>
     if p ≠ "" then
       if priorityFromString p = none then ["Invalid priority: " ++ p] else []
     else ["Priority is required"]
   | none => ["Priority is required"])

/-- Embeds `OpportunityValidationService.validate_for_submission`
(`opportunity_validation_service.py`, lines 58-84): all five checks run
and every failure is collected. -/
def validateForSubmission (o : Opp) : List String :=
  (if o.status ≠ .draft then ["Only draft opportunities can be submitted"]
   else []) ++
  (match o.problemStatement with
   | none => ["Problem statement is required for submission"]
   | some ps =>
     if ¬ ps.isComplete then
       ["Problem statement must be complete with all sections filled"]
     else []) ++
  (if o.skillRequirements.isEmpty then
     ["At least one skill requirement must be specified"] else []) ++
  (if (mandatorySkills o).isEmpty then
     ["At least one mandatory skill requirement must be specified"]
   else []) ++
  (if o.timelineSpecification.isNone then
     ["Timeline specification is required for submission"] else [])

/-- Embeds `StatusTransitionService.submit_opportunity`
(`status_transition_service.py`, lines 23-60): when validation reports
errors the service returns them and never touches the aggregate; else it
calls `change_status(SUBMITTED, ...)` (whose `ValueError` message the
catch-all turns into an error list). -/
def submitOpportunityTS (o : Opp) (submittedBy : String) (today : Int) :
    Except (List String) Opp :=
  let errs := validateForSubmission o
  if errs ≠ [] then .error errs
  else
    match changeStatus o .submitted submittedBy
        (some "Opportunity submitted for matching")
        (some "All required information provided") today with
    | some o' => .ok o'
    | none => .error ["Cannot transition from " ++ statusValue o.status ++
        " to " ++ statusValue .submitted]

/-- Embeds the permissions dictionary built by
`OpportunityModificationService.get_modification_permissions`. -/
structure Permissions where
  canModifyBasicInfo : Bool
  canModifySkills : Bool
  canModifyTimeline : Bool
  canModifyProblemStatement : Bool
  canAddAttachments : Bool
  modifiableFields : List String
  restrictions : List String
deriving DecidableEq, Repr

/-- Embeds `OpportunityModificationService.get_modification_permissions`
(`opportunity_modification_service.py`, lines 309-347). -/
def getModificationPermissions (o : Opp) : Permissions :=
  if statusIsModifiable o.status then
    { canModifyBasicInfo := true
      canModifySkills := true
      canModifyTimeline := true
      canModifyProblemStatement := true
      canAddAttachments := true
      modifiableFields := ["title", "description", "priority", "arr",
        "skills", "timeline", "problem_statement"]
      restrictions := [] }
  else if o.status = .architectSelected then
    let base : Permissions :=
      { canModifyBasicInfo := true
        canModifySkills := false
        canModifyTimeline := false
        canModifyProblemStatement := false
        canAddAttachments := false
        modifiableFields := ["priority", "notes"]
        restrictions :=
          ["Only priority and notes can be modified after architect selection"] }
    match o.timelineSpecification with
    | some ts =>
      if allowsAdjustment ts.flexibility then
        { base with
          canModifyTimeline := true
          modifiableFields := base.modifiableFields ++ ["timeline"] }
      else base
    | none => base
  else
    { canModifyBasicInfo := false
      canModifySkills := false
      canModifyTimeline := false
      canModifyProblemStatement := false
      canAddAttachments := false
      modifiableFields := []
      restrictions := ["No modifications allowed in " ++
        statusValue o.status ++ " status"] }

/-- Embeds the aidlc `OpportunityStatus` status-record entity of
`aidlc-docs/construction/opportunity_management_service/opportunity_status.py`:
one record per status change, `status` being the status transitioned to. -/
structure StatusRec where
  status : OpportunityStatus
  changedBy : String
  reason : Option String := none
deriving DecidableEq, Repr

/-- Embeds the aidlc `Opportunity` entity of
`aidlc-docs/construction/opportunity_management_service/opportunity.py`
(the fields the modelled service methods read or write). -/
structure AidlcOpp where
  title : String
  description : String
  salesManagerId : String
  priority : Priority
  annualRecurringRevenue : Int
  status : OpportunityStatus
  submittedAt : Option Int := none
  completedAt : Option Int := none
  cancelledAt : Option Int := none
  cancellationReason : Option String := none
  reactivationDeadline : Option Int := none
deriving DecidableEq, Repr

/-- Inner loop of `OpportunityService.reactivate_opportunity`
(`services.py`, lines 402-406), acting on the records it will visit in
visiting order: the first record whose status is not Cancelled, Draft
when none is. -/
def findPrevStatus : List StatusRec → OpportunityStatus
  | [] => .draft
  | r :: rest => if r.status ≠ .cancelled then r.status else findPrevStatus rest

/-- Embeds the previous-status scan of
`OpportunityService.reactivate_opportunity` (`services.py`, lines
398-406): `for i in range(len(h) - 2, -1, -1)` visits every record but
the last (the current Cancelled one), newest first — that is,
`h.dropLast.reverse` in order. -/
def previousStatusFromHistory (h : List StatusRec) : OpportunityStatus :=
  findPrevStatus h.dropLast.reverse

/-- Embeds `OpportunityService.cancel_opportunity` (`services.py`, lines
307-371).  `authorized` stands for the owner-or-admin check against the
user repository; the two `datetime.now()` reads of the source happen in
the same instant `now` here.  Note `reactivation_deadline = now + 90
days`. -/
def cancelOpportunityS (o : AidlcOpp) (reason : String) (now : Int)
    (authorized : Bool) : Except String (AidlcOpp × StatusRec) :=
  if ¬ authorized then
    .error "Only the Sales Manager who created the opportunity or an Admin can cancel it"
  else if o.status = .completed then
    .error "Completed opportunities cannot be cancelled"
  else if reason = "" then
    .error "Cancellation reason is required"
  else
    .ok ({ o with
           status := .cancelled
           cancelledAt := some now
           cancellationReason := some reason
           reactivationDeadline := some (now + 90) },
         { status := .cancelled, changedBy := o.salesManagerId,
           reason := some reason })

/-- Embeds `OpportunityService.reactivate_opportunity` (`services.py`,
lines 373-443): require authorization, Cancelled status, and a deadline
not yet passed (`datetime.now() > deadline` rejects, so the boundary
instant is accepted); the new status is the history scan's result and
one status record for it is created. -/
def reactivateOpportunityS (o : AidlcOpp) (h : List StatusRec)
    (userId : String) (now : Int) (authorized : Bool) :
    Except String (AidlcOpp × StatusRec) :=
  if ¬ authorized then
    .error "Only the Sales Manager who created the opportunity or an Admin can reactivate it"
  else if o.status ≠ .cancelled then
    .error "Only cancelled opportunities can be reactivated"
  else
    match o.reactivationDeadline with
    | none =>
      .error "Opportunity cannot be reactivated after the reactivation deadline (90 days)"
    | some dl =>
      if now > dl then
        .error "Opportunity cannot be reactivated after the reactivation deadline (90 days)"
      else
        let prev := previousStatusFromHistory h
        .ok ({ o with
               status := prev
               cancelledAt := none
               cancellationReason := none
               reactivationDeadline := none },
             { status := prev, changedBy := userId,
               reason := some "Opportunity reactivated" })

/-- The `value` string of each aidlc `ImportanceLevel` member
(`enums.py`, lines 31-34). -/
def importanceLevelValue : SkillImportance → String
  | .mustHave => "Must Have"
  | .niceToHave => "Nice to Have"

/-- Embeds `OpportunityService.submit_opportunity` (`services.py`, lines
236-305): the validations raise one at a time, so the first failing
check is the only error the caller sees.  Repository lookups are
modelled by the `problemStatement` (stored content), `skills` (stored
importance levels) and `timelinePresent` arguments.  The problem
statement length check is
`ProblemStatementValidator.validate_content` (`validators.py`, minimum
140 characters); the must-have check is
`SkillRequirementValidator.validate_skill_requirements`. -/
def submitOpportunityS (o : AidlcOpp) (authorized : Bool)
    (problemStatement : Option String) (skills : List SkillImportance)
    (timelinePresent : Bool) (now : Int) : Except String AidlcOpp :=
  if ¬ authorized then
    .error "Only the Sales Manager who created the opportunity or an Admin can submit it"
  else
    match problemStatement with
    | none => .error "Problem statement is required before submission"
    | some content =>
      if content = "" then
        .error "Problem statement content is required"
      else if content.length < 140 then
        .error "Problem statement must be at least 140 characters long"
      else if skills = [] then
        .error "At least one skill requirement is required before submission"
      else if skills.filter
          (fun i => importanceLevelValue i == "Must Have") = [] then
        .error "At least one 'Must Have' skill is required"
      else if ¬ timelinePresent then
        .error "Timeline requirement is required before submission"
      else
        .ok { o with status := .submitted, submittedAt := some now }

/-- Embeds the status gate of `Opportunity.update_opportunity`
(`aidlc-docs/construction/opportunity_management_service/opportunity.py`,
lines 76-83): only Architect Selected and Completed are rejected. -/
def updateAllowedA (s : OpportunityStatus) : Bool :=
  ¬ (s = .architectSelected || s = .completed)

/-- Embeds `Opportunity.update_opportunity` (`opportunity.py` of the
aidlc variant, lines 76-105) instantiated at `field = "title"`: reject
in Architect Selected / Completed, else `setattr` the new value. -/
def updateOpportunityTitleA (o : AidlcOpp) (newValue : String) :
    Except String AidlcOpp :=
  if o.status = .architectSelected || o.status = .completed then
    .error "Opportunities with Architect Selected or Completed status cannot be modified"
  else
    .ok { o with title := newValue }

/-- Embeds `OpportunityServiceAdapter.cancel_opportunity`
(`opportunity_api/app/services/opportunity_service_adapter.py`, lines
269-291 onward): the same checks as the service, but
`reactivation_deadline = datetime.utcnow()` — the cancellation instant
itself, the source's own comment reading "Simplified - should be +90
days". -/
def adapterCancelOpportunity (o : AidlcOpp) (reason : String) (now : Int) :
    Except String AidlcOpp :=
  if o.status = .completed then
    .error "Completed opportunities cannot be cancelled"
  else if pyStrip reason = "" then
    .error "Cancellation reason is required"
  else
    .ok { o with
          status := .cancelled
          cancelledAt := some now
          cancellationReason := some reason
          reactivationDeadline := some now }

/-- Embeds the validation of `OpportunityServiceAdapter.create_opportunity`
(`opportunity_service_adapter.py`, lines 36-42): empty title rejected,
`annual_recurring_revenue < 0` rejected — zero accepted. -/
def adapterCreateCheck (title : String) (arr : Int) : Except String Unit :=
  if pyStrip title = "" then .error "Title is required"
  else if arr < 0 then
    .error "Annual recurring revenue must be non-negative"
  else .ok ()

/-- Written from the spec's words (section 4.1 as amended by the code):
allowed targets per source status, with the single Cancelled outgoing
edge targeting Draft. -/
def allowedTargetsAmendedSpec : OpportunityStatus → List OpportunityStatus
  | .draft => [.submitted, .cancelled]
  | .submitted => [.matchingInProgress, .cancelled]
  | .matchingInProgress => [.matchesFound, .cancelled]
  | .matchesFound => [.architectSelected, .cancelled]
  | .architectSelected => [.completed, .cancelled]
  | .completed => []
  | .cancelled => [.draft]

/-- Written from the spec's words (section 4.1 as amended by the code):
allowed targets per source status with no outgoing edge from Cancelled,
matching the aidlc variant. -/
def allowedTargetsAmendedAidlcSpec :
    OpportunityStatus → List OpportunityStatus
  | .draft => [.submitted, .cancelled]
  | .submitted => [.matchingInProgress, .cancelled]
  | .matchingInProgress => [.matchesFound, .cancelled]
  | .matchesFound => [.architectSelected, .cancelled]
  | .architectSelected => [.completed, .cancelled]
  | .completed => []
  | .cancelled => []

/-- C1, counterexample.  The claim's table sends Cancelled to the status
held immediately before cancellation and nowhere else.  For a run
cancelled while Submitted the claim therefore demands
`canTransition (Cancelled, Draft) = false` and
`canTransition (Cancelled, Submitted) = true`; the code's
`can_transition_to` gives the opposite on both pairs, and the aidlc
`is_valid_transition` denies the Submitted edge as well. -/
theorem canTransitionTo_disagrees_with_claim_table :
    canTransitionTo .cancelled .draft = true ∧
    claimTransitionTableSpec .submitted .cancelled .draft = false ∧
    isValidTransition .cancelled .submitted = false ∧
    claimTransitionTableSpec .submitted .cancelled .submitted = true := by
  decide

/-- C1, amended.  Both transition predicates are pure lookups matching
the section-4.1 table on the six non-Cancelled sources; from Cancelled,
`can_transition_to` allows exactly Draft (regardless of the status held
before cancellation) and `is_valid_transition` allows nothing. -/
theorem transition_predicates_match_amended_table :
    ∀ s t : OpportunityStatus,
      canTransitionTo s t = (allowedTargetsAmendedSpec s).contains t ∧
      isValidTransition s t = (allowedTargetsAmendedAidlcSpec s).contains t := by
  intro s t
  cases s <;> cases t <;> decide

/-- C10.  `from_string` is a case-insensitive inverse of the status
value strings: any casing of a status's value string parses back to that
status, and a string matching no status's lowercased value raises
`ValueError` (modelled as `none`). -/
theorem statusFromString_case_insensitive_round_trip :
    (∀ (st : OpportunityStatus) (s : String),
        pyLower s = pyLower (statusValue st) → statusFromString s = some st) ∧
    (∀ s : String,
        (∀ st : OpportunityStatus, pyLower s ≠ pyLower (statusValue st)) →
        statusFromString s = none) := by
  constructor
  · intro st s h
    cases st <;>
      (simp only [statusValue] at h
       simp only [statusFromString, statusList]
       rw [h]
       decide)
  · intro s hall
    simp only [statusFromString, List.find?_eq_none]
    intro st _
    simp only [beq_iff_eq]
    exact fun hh => hall st hh.symm

/-- C10, witness: a mixed-case rendering of "Matching in Progress"
parses to that status, and an unknown string parses to `none`. -/
theorem statusFromString_witness :
    statusFromString "mAtChInG In PrOgReSs" = some .matchingInProgress ∧
    statusFromString "Completedd" = none := by
  refine ⟨statusFromString_case_insensitive_round_trip.1 .matchingInProgress _ (by decide), ?_⟩
  exact statusFromString_case_insensitive_round_trip.2 "Completedd"
    (by intro st; cases st <;> decide)

/-- C3.  `change_status` is the audit choke point: a rejected call is
exactly an illegal transition and raises before anything is mutated
(`none` carries no changed aggregate, so the status and the history are
untouched), while an accepted call appends exactly one `StatusHistory`
entry to the unchanged prefix, sets the new status, and keeps the
replay-the-history-in-order invariant: the replayed history ends at the
current status. -/
theorem changeStatus_appends_exactly_one_history_entry :
    ∀ (o : Opp) (ns : OpportunityStatus) (cb : String)
      (r nt : Option String) (today : Int),
      (changeStatus o ns cb r nt today = none ↔
        canTransitionTo o.status ns = false) ∧
      (∀ o', changeStatus o ns cb r nt today = some o' →
        o'.statusHistory = o.statusHistory ++
          [{ fromStatus := some o.status, toStatus := ns, changedBy := cb,
             changeReason := r, notes := nt }] ∧
        o'.statusHistory.length = o.statusHistory.length + 1 ∧
        o'.status = ns ∧
        replayStatus o'.statusHistory = some o'.status) := by
  intro o ns cb r nt today
  constructor
  · unfold changeStatus
    split
    · rename_i h
      simp [h]
    · rename_i h
      simp [Bool.eq_false_iff.mpr h, eq_false_of_ne_true h]
  · intro o' hsome
    unfold changeStatus at hsome
    split at hsome
    · cases hsome
      refine ⟨rfl, by simp, rfl, ?_⟩
      simp [replayStatus, List.foldl_append]
    · cases hsome

/-- C3, witness: a Draft aggregate submitted by its sales manager gains
exactly the one expected history entry, and an illegal transition
(Completed to Draft) is rejected. -/
theorem changeStatus_witness :
    (changeStatus
        { title := "Acme CRM", description := "CRM rollout",
          customerId := "cust-1", salesManagerId := "sm-1",
          annualRecurringRevenue := 100000, priority := .high,
          status := .draft,
          statusHistory := [{ fromStatus := none, toStatus := .draft,
                              changedBy := "sm-1" }] }
        .submitted "sm-1" (some "submit") none 3 =
      some
        { title := "Acme CRM", description := "CRM rollout",
          customerId := "cust-1", salesManagerId := "sm-1",
          annualRecurringRevenue := 100000, priority := .high,
          status := .submitted,
          statusHistory := [{ fromStatus := none, toStatus := .draft,
                              changedBy := "sm-1" },
                            { fromStatus := some .draft,
                              toStatus := .submitted, changedBy := "sm-1",
                              changeReason := some "submit" }] }) ∧
    (changeStatus
        { title := "Acme CRM", description := "CRM rollout",
          customerId := "cust-1", salesManagerId := "sm-1",
          annualRecurringRevenue := 100000, priority := .high,
          status := .completed }
        .draft "sm-1" none none 3 = none) := by
  constructor
  · rfl
  · exact (changeStatus_appends_exactly_one_history_entry
      { title := "Acme CRM", description := "CRM rollout",
        customerId := "cust-1", salesManagerId := "sm-1",
        annualRecurringRevenue := 100000, priority := .high,
        status := .completed }
      .draft "sm-1" none none 3).1.mpr (by decide)

/-- C5.  Reactivation validation: the clean-architecture entity accepts
exactly when the status is Cancelled, a cancellation date is set, and at
most 90 days have passed (the 90th day inclusive); the aidlc service
accepts exactly while `now` has not passed the stored deadline, and
composing with its own cancellation (deadline = cancellation time + 90
days) gives the same inclusive 90-day window. -/
theorem reactivation_window_ninety_days :
    (∀ (o : Opp) (rb : String) (nt : Option String) (today : Int),
        (reactivateOpportunityE o rb nt today).isSome = true ↔
          (o.status = .cancelled ∧
           ∃ d, o.cancellationDate = some d ∧ today - d ≤ 90)) ∧
    (∀ (o : AidlcOpp) (h : List StatusRec) (userId : String) (now dl : Int),
        o.status = .cancelled → o.reactivationDeadline = some dl →
        ((reactivateOpportunityS o h userId now true).isOk = true ↔
          now ≤ dl)) ∧
    (∀ (o : AidlcOpp) (reason : String) (now : Int) (o' : AidlcOpp)
        (rec : StatusRec) (h : List StatusRec) (userId : String)
        (now' : Int),
        cancelOpportunityS o reason now true = .ok (o', rec) →
        ((reactivateOpportunityS o' h userId now' true).isOk = true ↔
          now' - now ≤ 90)) := by
  refine ⟨?_, ?_, ?_⟩
  · intro o rb nt today
    by_cases hst : o.status = .cancelled
    · cases hd : o.cancellationDate with
      | none => simp [reactivateOpportunityE, hst, hd]
      | some d =>
        by_cases h90 : today - d > 90
        · simp [reactivateOpportunityE, hst, hd, h90]
          all_goals omega
        · simp [reactivateOpportunityE, hst, hd, h90, changeStatus,
            canTransitionTo]
          all_goals omega
    · simp [reactivateOpportunityE, hst]
  · intro o h userId now dl hst hdl
    by_cases hgt : now > dl
    · simp [reactivateOpportunityS, hst, hdl, hgt, Except.isOk, Except.toBool]
    · simp [reactivateOpportunityS, hst, hdl, hgt, Except.isOk, Except.toBool]
      all_goals omega
  · intro o reason now o' rec h userId now' hc
    unfold cancelOpportunityS at hc
    split at hc
    · cases hc
    · split at hc
      · cases hc
      · split at hc
        · cases hc
        · rw [Except.ok.injEq, Prod.mk.injEq] at hc
          obtain ⟨ho, hrec⟩ := hc
          subst ho
          by_cases hgt : now' > now + 90
          · simp [reactivateOpportunityS, hgt, Except.isOk, Except.toBool]
            all_goals omega
          · simp [reactivateOpportunityS, hgt, Except.isOk, Except.toBool]
            all_goals omega

/-- A Cancelled clean-architecture opportunity, cancelled on day 0. -/
def oppCancelledDay0 : Opp :=
  { title := "t", description := "d", customerId := "c",
    salesManagerId := "s", annualRecurringRevenue := 1,
    priority := .low, status := .cancelled,
    cancellationDate := some 0 }

/-- A Submitted aidlc opportunity, before any cancellation. -/
def aidlcOppSubmitted : AidlcOpp :=
  { title := "t", description := "d", salesManagerId := "s",
    priority := .low, annualRecurringRevenue := 1,
    status := .submitted }

/-- C5, witness: reactivating exactly 90 days after a day-0 cancellation
succeeds, at 91 days fails, and cancelling the aidlc opportunity at
time 0 then reactivating at time 90 succeeds. -/
theorem reactivation_window_witness :
    (reactivateOpportunityE oppCancelledDay0 "s" none 90).isSome = true ∧
    (reactivateOpportunityE oppCancelledDay0 "s" none 91).isSome = false ∧
    (reactivateOpportunityS
        { aidlcOppSubmitted with
          status := .cancelled
          cancelledAt := some 0
          cancellationReason := some "budget"
          reactivationDeadline := some 90 }
        [] "u" 90 true).isOk = true := by
  refine ⟨?_, ?_, ?_⟩
  · exact (reactivation_window_ninety_days.1 oppCancelledDay0 "s" none 90).mpr
      ⟨rfl, 0, rfl, by omega⟩
  · refine Bool.eq_false_iff.mpr (fun hcontra => ?_)
    obtain ⟨-, d, hd, hle⟩ :=
      (reactivation_window_ninety_days.1 oppCancelledDay0 "s" none 91).mp hcontra
    cases hd
    omega
  · exact (reactivation_window_ninety_days.2.2 aidlcOppSubmitted "budget" 0
      { aidlcOppSubmitted with
        status := .cancelled
        cancelledAt := some 0
        cancellationReason := some "budget"
        reactivationDeadline := some 90 }
      { status := .cancelled, changedBy := aidlcOppSubmitted.salesManagerId,
        reason := some "budget" }
      [] "u" 90 (by rfl)).mpr (by omega)

/-- Written from the claim's words: scan the history from most recent
to oldest, skip the current Cancelled entry (the last one), return the
`toStatus` of the first entry whose status is not Cancelled, defaulting
to Draft when no such entry exists. -/
def reactivationTargetSpec (h : List StatusHistoryE) : OpportunityStatus :=
  match (h.dropLast.reverse).find? (fun e => !(e.toStatus == .cancelled)) with
  | some e => e.toStatus
  | none => .draft

/-- Written from the claim's words, on the aidlc status records (whose
`status` field is the status transitioned to). -/
def reactivationTargetSpecA (h : List StatusRec) : OpportunityStatus :=
  match (h.dropLast.reverse).find? (fun r => !(r.status == .cancelled)) with
  | some r => r.status
  | none => .draft

/-- The index loop in `findPrevStatus` computes the first-non-Cancelled
`find?` of the records it visits. -/
theorem findPrevStatus_eq_find (l : List StatusRec) :
    findPrevStatus l =
      match l.find? (fun r => !(r.status == .cancelled)) with
      | some r => r.status
      | none => OpportunityStatus.draft := by
  induction l with
  | nil => rfl
  | cons r rest ih =>
    by_cases hr : r.status = .cancelled
    · simp [findPrevStatus, List.find?_cons, hr, ih]
    · simp [findPrevStatus, List.find?_cons, hr]

/-- A clean-architecture opportunity cancelled while Submitted: its
history reads Draft, Submitted, Cancelled and its status is Cancelled
(cancelled on day 0). -/
def oppCancelledWhileSubmitted : Opp :=
  { title := "Acme CRM", description := "d", customerId := "c",
    salesManagerId := "s", annualRecurringRevenue := 1,
    priority := .medium, status := .cancelled,
    statusHistory :=
      [{ fromStatus := none, toStatus := .draft, changedBy := "s" },
       { fromStatus := some .draft, toStatus := .submitted, changedBy := "s" },
       { fromStatus := some .submitted, toStatus := .cancelled,
         changedBy := "s", changeReason := some "budget" }],
    cancellationDate := some 0, cancellationReason := some "budget" }

/-- C2, counterexample.  The clean-architecture entity's
`reactivate_opportunity` (`opportunity.py`, lines 223-239) calls
`change_status(DRAFT, ...)` unconditionally: an opportunity cancelled
while Submitted is successfully reactivated to Draft, not to the result
of the history scan (Submitted). -/
theorem entity_reactivation_ignores_history :
    (reactivateOpportunityE oppCancelledWhileSubmitted "s" none 1).map
        (fun o => o.status) = some .draft ∧
    reactivationTargetSpec oppCancelledWhileSubmitted.statusHistory =
      .submitted ∧
    OpportunityStatus.draft ≠ .submitted := by
  decide

/-- C2, amended.  Reactivation target resolution lives only in the aidlc
service: its scan (`services.py`, lines 398-406) equals the
spec-described walk — newest to oldest, skipping the final Cancelled
record, first non-Cancelled status, Draft as default — and a successful
service reactivation adopts exactly that status.  The clean-architecture
entity's own `reactivate_opportunity` instead always returns the
opportunity to Draft. -/
theorem reactivation_target_resolution :
    (∀ h : List StatusRec,
        previousStatusFromHistory h = reactivationTargetSpecA h) ∧
    (∀ (o : AidlcOpp) (h : List StatusRec) (userId : String) (now : Int)
        (authorized : Bool) (o' : AidlcOpp) (rec : StatusRec),
        reactivateOpportunityS o h userId now authorized = .ok (o', rec) →
        o'.status = previousStatusFromHistory h ∧
        rec.status = previousStatusFromHistory h) ∧
    (∀ (o : Opp) (rb : String) (nt : Option String) (today : Int)
        (o' : Opp),
        reactivateOpportunityE o rb nt today = some o' →
        o'.status = .draft) := by
  refine ⟨?_, ?_, ?_⟩
  · intro h
    rw [previousStatusFromHistory, findPrevStatus_eq_find,
      reactivationTargetSpecA]
  · intro o h userId now authorized o' rec hr
    unfold reactivateOpportunityS at hr
    split at hr
    · cases hr
    · split at hr
      · cases hr
      · split at hr
        · cases hr
        · split at hr
          · cases hr
          · rw [Except.ok.injEq, Prod.mk.injEq] at hr
            obtain ⟨ho, hrec⟩ := hr
            subst ho
            subst hrec
            exact ⟨rfl, rfl⟩
  · intro o rb nt today o' hr
    unfold reactivateOpportunityE at hr
    split at hr
    · cases hr
    · split at hr
      · cases hr
      · split at hr
        · cases hr
        · unfold changeStatus at hr
          split at hr
          · rw [Option.map_some', Option.some.injEq] at hr
            subst hr
            rfl
          · cases hr

/-- The Cancelled counterpart of `aidlcOppSubmitted`, cancelled at time
0 with deadline 90. -/
def aidlcOppCancelled : AidlcOpp :=
  { aidlcOppSubmitted with
    status := .cancelled
    cancelledAt := some 0
    cancellationReason := some "budget"
    reactivationDeadline := some 90 }

/-- The aidlc status history of an opportunity cancelled while
Submitted. -/
def histDraftSubmittedCancelled : List StatusRec :=
  [{ status := .draft, changedBy := "s" },
   { status := .submitted, changedBy := "s" },
   { status := .cancelled, changedBy := "s", reason := some "budget" }]

/-- C2 (amended), witness: the aidlc service reactivates the
cancelled-while-Submitted opportunity back to Submitted (the scan's
result), and the clean-architecture entity reactivates the day-0
cancelled opportunity to Draft. -/
theorem reactivation_target_witness :
    aidlcOppSubmitted.status =
      previousStatusFromHistory histDraftSubmittedCancelled ∧
    ({ title := "t", description := "d", customerId := "c",
       salesManagerId := "s", annualRecurringRevenue := 1,
       priority := .low, status := .draft,
       statusHistory :=
         [{ fromStatus := some .cancelled, toStatus := .draft,
            changedBy := "s",
            changeReason := some "Opportunity reactivated" }] } : Opp).status
      = .draft := by
  constructor
  · exact (reactivation_target_resolution.2.1 aidlcOppCancelled
      histDraftSubmittedCancelled "u" 1 true aidlcOppSubmitted
      { status := .submitted, changedBy := "u",
        reason := some "Opportunity reactivated" } (by rfl)).1
  · exact reactivation_target_resolution.2.2 oppCancelledDay0 "s" none 1
      { title := "t", description := "d", customerId := "c",
        salesManagerId := "s", annualRecurringRevenue := 1,
        priority := .low, status := .draft,
        statusHistory :=
          [{ fromStatus := some .cancelled, toStatus := .draft,
             changedBy := "s",
             changeReason := some "Opportunity reactivated" }] } (by rfl)

/-- C6.  Evaluating the cancellation paths at concrete inputs:
cancelling a Completed opportunity fails in both the aidlc service and
the API adapter; an empty reason fails in both; a successful service
cancellation stamps the cancellation time, the reason, and a deadline of
cancellation time + 90 days — but the API adapter's own cancellation
(its comment reads "Simplified - should be +90 days") stamps
`reactivation_deadline = now`, i.e. cancellationDate + 0 days, not the
claimed cancellationDate + 90 days. -/
theorem adapter_cancel_sets_deadline_at_cancellation_time :
    (cancelOpportunityS { aidlcOppSubmitted with status := .completed }
        "budget" 0 true).isOk = false ∧
    (adapterCancelOpportunity { aidlcOppSubmitted with status := .completed }
        "budget" 0).isOk = false ∧
    (cancelOpportunityS aidlcOppSubmitted "" 0 true).isOk = false ∧
    (adapterCancelOpportunity aidlcOppSubmitted "" 0).isOk = false ∧
    cancelOpportunityS aidlcOppSubmitted "budget" 0 true =
      .ok ({ aidlcOppSubmitted with
             status := .cancelled
             cancelledAt := some 0
             cancellationReason := some "budget"
             reactivationDeadline := some 90 },
           { status := .cancelled, changedBy := "s",
             reason := some "budget" }) ∧
    adapterCancelOpportunity aidlcOppSubmitted "budget" 0 =
      .ok { aidlcOppSubmitted with
            status := .cancelled
            cancelledAt := some 0
            cancellationReason := some "budget"
            reactivationDeadline := some 0 } ∧
    some (0 : Int) ≠ some ((0 : Int) + 90) := by
  refine ⟨rfl, rfl, rfl, rfl, rfl, rfl, by decide⟩

/-- C7, counterexample.  The aidlc entity's `update_opportunity` rejects
only Architect Selected and Completed: it happily mutates a field while
the status is Matching in Progress or Cancelled (the claim says every
field modification is rejected there), and it rejects a change while
Architect Selected (where the claim permits priority). -/
theorem aidlc_update_allows_matching_in_progress :
    (updateOpportunityTitleA { aidlcOppSubmitted with
        status := .matchingInProgress } "new title").isOk = true ∧
    updateAllowedA .matchingInProgress = true ∧
    updateAllowedA .matchesFound = true ∧
    updateAllowedA .cancelled = true ∧
    (updateOpportunityTitleA { aidlcOppSubmitted with
        status := .architectSelected } "new title").isOk = false := by
  refine ⟨rfl, rfl, rfl, rfl, rfl⟩

/-- C7, amended.  In the clean-architecture modification service the
permissions are exactly as the claim states: Draft and Submitted expose
every business field; Architect Selected exposes only priority and
notes, plus timeline exactly when its flexibility is Flexible or
Negotiable; Matching in Progress, Matches Found, Completed and
Cancelled expose nothing.  The aidlc entity's `update_opportunity`
instead gates only on Architect Selected and Completed, so fields may
be mutated in Matching in Progress, Matches Found and Cancelled, and
nothing (not even priority) may be changed in Architect Selected. -/
theorem modification_permissions_by_status :
    (∀ o : Opp, statusIsModifiable o.status = true →
        getModificationPermissions o =
          { canModifyBasicInfo := true, canModifySkills := true,
            canModifyTimeline := true, canModifyProblemStatement := true,
            canAddAttachments := true,
            modifiableFields := ["title", "description", "priority", "arr",
              "skills", "timeline", "problem_statement"],
            restrictions := [] }) ∧
    (∀ o : Opp, o.status = .architectSelected →
        (getModificationPermissions o).canModifyBasicInfo = true ∧
        (getModificationPermissions o).canModifySkills = false ∧
        (getModificationPermissions o).canModifyProblemStatement = false ∧
        ((getModificationPermissions o).canModifyTimeline = true ↔
          ∃ ts, o.timelineSpecification = some ts ∧
            allowsAdjustment ts.flexibility = true) ∧
        (getModificationPermissions o).modifiableFields =
          (if (getModificationPermissions o).canModifyTimeline then
            ["priority", "notes", "timeline"] else ["priority", "notes"])) ∧
    (∀ o : Opp, statusIsModifiable o.status = false →
        o.status ≠ .architectSelected →
        getModificationPermissions o =
          { canModifyBasicInfo := false, canModifySkills := false,
            canModifyTimeline := false, canModifyProblemStatement := false,
            canAddAttachments := false, modifiableFields := [],
            restrictions := ["No modifications allowed in " ++
              statusValue o.status ++ " status"] }) ∧
    (∀ s : OpportunityStatus,
        updateAllowedA s =
          (!(s == .architectSelected) && !(s == .completed))) := by
  refine ⟨?_, ?_, ?_, ?_⟩
  · intro o hmod
    simp [getModificationPermissions, hmod]
  · intro o hsel
    have hmod : ¬ (statusIsModifiable o.status = true) := by
      rw [hsel]; decide
    cases hts : o.timelineSpecification with
    | none =>
      simp [getModificationPermissions, statusIsModifiable, hmod, hsel, hts]
    | some ts =>
      by_cases hf : allowsAdjustment ts.flexibility = true
      · simp [getModificationPermissions, statusIsModifiable, hmod, hsel,
          hts, hf]
      · simp [getModificationPermissions, statusIsModifiable, hmod, hsel,
          hts, hf]
  · intro o hmod hsel
    simp [getModificationPermissions, hmod, hsel]
  · intro s
    cases s <;> rfl

/-- C7 (amended), witness: a Draft opportunity gets the full whitelist;
an Architect Selected opportunity with a Flexible timeline may change
its timeline; with a Fixed one it may not; a Cancelled opportunity gets
an empty whitelist; and the aidlc gate admits Matching in Progress. -/
theorem modification_permissions_witness :
    (getModificationPermissions
        { oppCancelledDay0 with status := .draft }).modifiableFields =
      ["title", "description", "priority", "arr", "skills", "timeline",
       "problem_statement"] ∧
    (getModificationPermissions
        { oppCancelledDay0 with
          status := .architectSelected
          timelineSpecification :=
            some { expectedStartDate := 30, expectedDurationDays := 60,
                   flexibility := .flexible } }).canModifyTimeline = true ∧
    (getModificationPermissions
        { oppCancelledDay0 with
          status := .architectSelected
          timelineSpecification :=
            some { expectedStartDate := 30, expectedDurationDays := 60,
                   flexibility := .fixed } }).canModifyTimeline = false ∧
    (getModificationPermissions oppCancelledDay0).modifiableFields = [] ∧
    updateAllowedA .matchingInProgress = true := by
  refine ⟨?_, ?_, ?_, ?_, ?_⟩
  · have h := modification_permissions_by_status.1
      { oppCancelledDay0 with status := .draft } (by decide)
    rw [h]
  · have h := (modification_permissions_by_status.2.1
      { oppCancelledDay0 with
        status := .architectSelected
        timelineSpecification :=
          some { expectedStartDate := 30, expectedDurationDays := 60,
                 flexibility := .flexible } } rfl).2.2.2.1
    exact h.mpr ⟨_, rfl, rfl⟩
  · have h := (modification_permissions_by_status.2.1
      { oppCancelledDay0 with
        status := .architectSelected
        timelineSpecification :=
          some { expectedStartDate := 30, expectedDurationDays := 60,
                 flexibility := .fixed } } rfl).2.2.2.1
    refine Bool.eq_false_iff.mpr (fun hcontra => ?_)
    obtain ⟨ts, hts, hflex⟩ := h.mp hcontra
    cases hts
    cases hflex
  · have h := modification_permissions_by_status.2.2.1 oppCancelledDay0
      (by decide) (by decide)
    rw [h]
  · exact modification_permissions_by_status.2.2.2 .matchingInProgress

/-- Written from the claim's words: creation input is acceptable when
title and description are non-empty, customer and sales-manager ids are
present, the annual recurring revenue is greater than or equal to 0
(zero valid), and the priority parses to a known value. -/
def creationOkClaimSpec (d : CreationData) : Bool :=
  pyStrip d.title ≠ "" && pyStrip d.description ≠ "" &&
  pyStrip d.customerId ≠ "" && pyStrip d.salesManagerId ≠ "" &&
  (0 : Int) ≤ d.annualRecurringRevenue.getD 0 &&
  (match d.priority with
   | some p => p ≠ "" && (priorityFromString p).isSome
   | none => false)

/-- Written from the claim's words as amended by the code: identical to
the claim except that the annual recurring revenue must be strictly
positive (zero rejected). -/
def creationOkAmendedSpec (d : CreationData) : Bool :=
  pyStrip d.title ≠ "" && pyStrip d.description ≠ "" &&
  pyStrip d.customerId ≠ "" && pyStrip d.salesManagerId ≠ "" &&
  (0 : Int) < d.annualRecurringRevenue.getD 0 &&
  (match d.priority with
   | some p => p ≠ "" && (priorityFromString p).isSome
   | none => false)

/-- An otherwise fully valid creation input whose annual recurring
revenue is exactly zero. -/
def creationDataZeroArr : CreationData :=
  { title := "Acme CRM", description := "CRM rollout",
    customerId := "cust-1", salesManagerId := "sm-1",
    annualRecurringRevenue := some 0, priority := some "High" }

/-- C8, counterexample.  `validate_for_creation` rejects
`annual_recurring_revenue <= 0` ("must be positive"), so a creation
input that satisfies every condition of the claim — including ARR = 0,
which the claim calls valid — still yields a non-empty error list. -/
theorem validateForCreation_rejects_zero_arr :
    creationOkClaimSpec creationDataZeroArr = true ∧
    validateForCreation creationDataZeroArr =
      ["Annual Recurring Revenue must be positive"] := by
  refine ⟨by decide, by decide⟩

/-- A one-message error component is empty exactly when its condition
fails. -/
theorem ite_singleton_nil_iff {c : Prop} [Decidable c] {m : String} :
    ((if c then [m] else []) = []) ↔ ¬ c := by
  split <;> simp_all

/-- C8, amended.  `validate_for_creation` returns the empty error list
exactly for the claimed inputs with the single change that the annual
recurring revenue must be strictly positive (zero rejected); the API
adapter's own creation check keeps the claim's inclusive bound,
accepting zero. -/
theorem creation_validation_characterizes_errors :
    (∀ d : CreationData,
        (validateForCreation d = [] ↔ creationOkAmendedSpec d = true)) ∧
    (∀ (t : String) (arr : Int),
        ((adapterCreateCheck t arr).isOk = true ↔
          (pyStrip t ≠ "" ∧ 0 ≤ arr))) := by
  constructor
  · intro d
    cases hp : d.priority with
    | none =>
      simp [validateForCreation, creationOkAmendedSpec, hp,
        ite_singleton_nil_iff]
    | some p =>
      by_cases hp0 : p = ""
      · simp [validateForCreation, creationOkAmendedSpec, hp, hp0,
          ite_singleton_nil_iff]
      · by_cases hpf : priorityFromString p = none
        · simp [validateForCreation, creationOkAmendedSpec, hp, hp0, hpf,
            ite_singleton_nil_iff]
        · simp [validateForCreation, creationOkAmendedSpec, hp, hp0, hpf,
            ite_singleton_nil_iff, Option.isSome_iff_ne_none]
          tauto
  · intro t arr
    by_cases h1 : pyStrip t = ""
    · simp [adapterCreateCheck, h1, Except.isOk, Except.toBool]
    · by_cases h2 : arr < 0
      · simp [adapterCreateCheck, h1, h2, Except.isOk, Except.toBool]
      · simp [adapterCreateCheck, h1, h2, Except.isOk, Except.toBool]
        omega

/-- Membership in a one-message error component holds exactly when the
condition holds and the message matches. -/
theorem mem_ite_singleton {c : Prop} [Decidable c] {a m : String} :
    (a ∈ (if c then [m] else [])) ↔ (c ∧ a = m) := by
  split <;> simp_all

/-- C4, counterexample.  The aidlc `submit_opportunity` raises on the
first failing check: submitting a Draft opportunity that is missing both
its problem statement and its timeline reports only the
problem-statement error — the caller does not see every missing
precondition at once, contradicting the claim for this cited
implementation. -/
theorem aidlc_submit_short_circuits :
    submitOpportunityS { aidlcOppSubmitted with status := .draft } true
        none [] false 0 =
      .error "Problem statement is required before submission" ∧
    "Problem statement is required before submission" ≠
      "Timeline requirement is required before submission" := by
  refine ⟨rfl, by decide⟩

/-- C4, amended.  The clean-architecture `validate_for_submission` does
run every check and collect every failure at once: for a Draft
opportunity each of the four missing-precondition messages is present
exactly when its precondition is missing, and a failed submission
returns the full error list without touching the aggregate (no status
change, no history entry).  The aidlc `submit_opportunity`, however,
raises on the first failing check, reporting only the missing problem
statement even when the timeline (or anything else) is missing too. -/
theorem submission_validation_collects_all_errors :
    (∀ o : Opp, o.status = .draft →
        (("Problem statement is required for submission" ∈
            validateForSubmission o) ↔ o.problemStatement = none) ∧
        (("At least one skill requirement must be specified" ∈
            validateForSubmission o) ↔ o.skillRequirements = []) ∧
        (("At least one mandatory skill requirement must be specified" ∈
            validateForSubmission o) ↔ mandatorySkills o = []) ∧
        (("Timeline specification is required for submission" ∈
            validateForSubmission o) ↔ o.timelineSpecification = none)) ∧
    (∀ (o : Opp) (sb : String) (today : Int),
        validateForSubmission o ≠ [] →
        submitOpportunityTS o sb today = .error (validateForSubmission o)) ∧
    (∀ (o : AidlcOpp) (skills : List SkillImportance) (tlPresent : Bool)
        (now : Int),
        submitOpportunityS o true none skills tlPresent now =
          .error "Problem statement is required before submission") := by
  refine ⟨?_, ?_, ?_⟩
  · intro o h
    cases hps : o.problemStatement with
    | none =>
      refine ⟨?_, ?_, ?_, ?_⟩ <;>
        simp [validateForSubmission, h, hps, mem_ite_singleton,
          List.isEmpty_iff]
    | some ps =>
      by_cases hcomp : ps.isComplete = true
      · refine ⟨?_, ?_, ?_, ?_⟩ <;>
          simp [validateForSubmission, h, hps, hcomp, mem_ite_singleton,
            List.isEmpty_iff]
      · refine ⟨?_, ?_, ?_, ?_⟩ <;>
          simp [validateForSubmission, h, hps, hcomp, mem_ite_singleton,
            List.isEmpty_iff]
  · intro o sb today hne
    rw [submitOpportunityTS]
    exact if_pos hne
  · intro o skills tlPresent now
    rfl

/-- A Draft opportunity with only a Nice-to-Have skill and nothing
else: problem statement, Must-Have skill and timeline all missing. -/
def oppDraftMissingParts : Opp :=
  { title := "t", description := "d", customerId := "c",
    salesManagerId := "s", annualRecurringRevenue := 1,
    priority := .low, status := .draft,
    skillRequirements :=
      [{ skillName := "Java"
         skillCategory := "Technical"
         importance := .niceToHave }] }

/-- C4 (amended), witness: the draft opportunity missing its problem
statement, Must-Have skill and timeline sees all three messages in one
validation result, and its failed submission returns exactly that error
list. -/
theorem submission_validation_witness :
    ("Problem statement is required for submission" ∈
      validateForSubmission oppDraftMissingParts) ∧
    ("At least one mandatory skill requirement must be specified" ∈
      validateForSubmission oppDraftMissingParts) ∧
    ("Timeline specification is required for submission" ∈
      validateForSubmission oppDraftMissingParts) ∧
    submitOpportunityTS oppDraftMissingParts "s" 0 =
      .error (validateForSubmission oppDraftMissingParts) := by
  refine ⟨?_, ?_, ?_, ?_⟩
  · exact ((submission_validation_collects_all_errors.1
      oppDraftMissingParts rfl).1).mpr rfl
  · exact ((submission_validation_collects_all_errors.1
      oppDraftMissingParts rfl).2.2.1).mpr (by decide)
  · exact ((submission_validation_collects_all_errors.1
      oppDraftMissingParts rfl).2.2.2).mpr rfl
  · exact submission_validation_collects_all_errors.2.1
      oppDraftMissingParts "s" 0 (by decide)

/-- The pairwise uniqueness invariant on a skill-requirements list: no
entry clashes with a later one on (case-insensitive name, category) —
the invariant `add_skill_requirement` maintains. -/
def noDupSkills : List SkillRequirement → Bool
  | [] => true
  | a :: rest =>
    rest.all (fun b => !(pyLower a.skillName == pyLower b.skillName &&
      a.skillCategory == b.skillCategory)) && noDupSkills rest

/-- One call against the skill-requirements list: the two mutators of
`opportunity.py` (clean variant). -/
inductive SkillOp where
  | addSkill (sr : SkillRequirement)
  | removeSkill (name category : String)

/-- Apply one skill operation; a raised `ValueError` (modelled `none`)
leaves the aggregate as it was. -/
def applySkillOp (o : Opp) : SkillOp → Opp
  | .addSkill sr => (addSkillRequirement o sr).getD o
  | .removeSkill name category =>
    match removeSkillRequirement o name category with
    | some (o', _) => o'
    | none => o

/-- Apply a sequence of add/remove skill operations in order. -/
def applySkillOps (o : Opp) (ops : List SkillOp) : Opp :=
  ops.foldl applySkillOp o

/-- Appending an entry that clashes with no existing entry preserves the
uniqueness invariant. -/
theorem noDupSkills_append_single {l : List SkillRequirement}
    {sr : SkillRequirement} (hl : noDupSkills l = true)
    (hno : l.all (fun e => !(pyLower e.skillName == pyLower sr.skillName &&
      e.skillCategory == sr.skillCategory)) = true) :
    noDupSkills (l ++ [sr]) = true := by
  induction l with
  | nil => rfl
  | cons a rest ih =>
    simp only [noDupSkills, List.all_cons, Bool.and_eq_true] at hl hno
    simp only [List.cons_append, noDupSkills, List.append_eq,
      Bool.and_eq_true]
    refine ⟨?_, ih hl.2 hno.2⟩
    rw [List.all_append, Bool.and_eq_true]
    refine ⟨hl.1, ?_⟩
    simpa using hno.1

/-- Removing preserves any `all` property of the list. -/
theorem all_removeFirstSkill {p : SkillRequirement → Bool}
    {n c : String} {l : List SkillRequirement} (h : l.all p = true) :
    ((removeFirstSkill n c l).1).all p = true := by
  induction l with
  | nil => rfl
  | cons e rest ih =>
    simp only [List.all_cons, Bool.and_eq_true] at h
    simp only [removeFirstSkill]
    split
    · exact h.2
    · simp only [List.all_cons, Bool.and_eq_true]
      exact ⟨h.1, ih h.2⟩

/-- Removing an entry preserves the uniqueness invariant. -/
theorem noDupSkills_removeFirstSkill {n c : String}
    {l : List SkillRequirement} (hl : noDupSkills l = true) :
    noDupSkills (removeFirstSkill n c l).1 = true := by
  induction l with
  | nil => rfl
  | cons e rest ih =>
    simp only [noDupSkills, Bool.and_eq_true] at hl
    simp only [removeFirstSkill]
    split
    · exact hl.2
    · simp only [noDupSkills, Bool.and_eq_true]
      exact ⟨all_removeFirstSkill hl.1, ih hl.2⟩

/-- When no entry matches, removal returns the list unchanged and
reports `false`. -/
theorem removeFirstSkill_no_match {n c : String}
    {l : List SkillRequirement}
    (h : l.all (fun e => !(pyLower e.skillName == pyLower n &&
      e.skillCategory == c)) = true) :
    removeFirstSkill n c l = (l, false) := by
  induction l with
  | nil => rfl
  | cons e rest ih =>
    simp only [List.all_cons, Bool.and_eq_true] at h
    have hcond : (pyLower e.skillName == pyLower n &&
        e.skillCategory == c) = false := by
      rcases h with ⟨h1, -⟩
      revert h1
      cases pyLower e.skillName == pyLower n && e.skillCategory == c <;> simp
    simp only [removeFirstSkill, hcond]
    simp [ih h.2]

/-- C9.  The skill-requirements list never holds two entries equal on
(case-insensitive name, category): the invariant is preserved by every
sequence of `add_skill_requirement` / `remove_skill_requirement` calls
(a raised `ValueError` leaves the list untouched); adding a duplicate —
names compared case-insensitively, categories exactly — is rejected as
an error; and removing with no case-insensitive match returns `false`
and changes nothing. -/
theorem skill_requirements_unique_by_name_and_category :
    (∀ (o : Opp) (ops : List SkillOp),
        noDupSkills o.skillRequirements = true →
        noDupSkills (applySkillOps o ops).skillRequirements = true) ∧
    (∀ (o : Opp) (sr : SkillRequirement),
        (o.skillRequirements.any (fun e =>
          pyLower e.skillName == pyLower sr.skillName &&
          e.skillCategory == sr.skillCategory)) = true →
        addSkillRequirement o sr = none) ∧
    (∀ (o : Opp) (name category : String),
        statusIsModifiable o.status = true →
        (o.skillRequirements.all (fun e =>
          !(pyLower e.skillName == pyLower name &&
            e.skillCategory == category))) = true →
        removeSkillRequirement o name category = some (o, false)) := by
  refine ⟨?_, ?_, ?_⟩
  · intro o ops
    induction ops generalizing o with
    | nil => exact fun h => h
    | cons op rest ih =>
      intro h
      apply ih
      cases op with
      | addSkill sr =>
        by_cases hmod : statusIsModifiable o.status = true
        · by_cases hany : (o.skillRequirements.any (fun e =>
              pyLower e.skillName == pyLower sr.skillName &&
              e.skillCategory == sr.skillCategory)) = true
          · simpa [applySkillOp, addSkillRequirement, hmod, hany] using h
          · simp only [applySkillOp, addSkillRequirement, hmod, not_true,
              not_false_iff, if_false, hany, Option.getD_some]
            exact noDupSkills_append_single h
              (by
                have hfalse := Bool.of_not_eq_true hany
                rw [List.any_eq_false] at hfalse
                simp only [List.all_eq_true]
                intro x hx
                have hx' := hfalse x hx
                revert hx'
                cases pyLower x.skillName == pyLower sr.skillName &&
                  x.skillCategory == sr.skillCategory <;> simp)
        · simpa [applySkillOp, addSkillRequirement, hmod] using h
      | removeSkill name category =>
        by_cases hmod : statusIsModifiable o.status = true
        · simp only [applySkillOp, removeSkillRequirement, hmod, not_true,
            not_false_iff, if_false]
          exact noDupSkills_removeFirstSkill h
        · simpa [applySkillOp, removeSkillRequirement, hmod] using h
  · intro o sr hany
    unfold addSkillRequirement
    split
    · rfl
    · simp [hany]
  · intro o name category hmod hall
    have hrf := removeFirstSkill_no_match (n := name) (c := category) hall
    simp [removeSkillRequirement, hmod, hrf]

/-- A Draft opportunity holding one Must-Have Java requirement. -/
def oppDraftWithJava : Opp :=
  { title := "t", description := "d", customerId := "c",
    salesManagerId := "s", annualRecurringRevenue := 1,
    priority := .low, status := .draft,
    skillRequirements :=
      [{ skillName := "Java"
         skillCategory := "Technical"
         importance := .mustHave }] }

/-- C9, witness: a concrete add/add/remove sequence keeps the list
duplicate-free, adding "jAvA"/Technical over "Java"/Technical is
rejected, and removing an absent "Go"/Technical returns `false` with
the aggregate unchanged. -/
theorem skill_requirements_unique_witness :
    noDupSkills (applySkillOps oppDraftWithJava
      [.addSkill { skillName := "Python", skillCategory := "Technical", importance := .niceToHave },
       .addSkill { skillName := "JAVA", skillCategory := "Technical", importance := .mustHave },
       .removeSkill "PYTHON" "Technical"]).skillRequirements = true ∧
    addSkillRequirement oppDraftWithJava
      { skillName := "jAvA", skillCategory := "Technical", importance := .niceToHave } = none ∧
    removeSkillRequirement oppDraftWithJava "Go" "Technical" =
      some (oppDraftWithJava, false) := by
  refine ⟨?_, ?_, ?_⟩
  · exact skill_requirements_unique_by_name_and_category.1 oppDraftWithJava
      _ (by decide)
  · exact skill_requirements_unique_by_name_and_category.2.1
      oppDraftWithJava _ (by decide)
  · exact skill_requirements_unique_by_name_and_category.2.2
      oppDraftWithJava "Go" "Technical" (by decide) (by decide)
